import Mathlib

set_option maxHeartbeats 4000000
set_option maxRecDepth 100000

/-
Verification development for the skill-document validation engine
(scripts/validate_skill.py).  Strings are embedded as lists of characters;
Python values appearing in parsed frontmatter are embedded as `PyValue`;
fallible code is embedded with `Except`.  An uncaught Python exception is
modelled as `Except.error ()` at the top level of `validate_skill_file`.
-/

abbrev Str := List Char

def S (s : String) : Str := s.data

def backtickChar : Char := Char.ofNat 96
def squoteChar : Char := Char.ofNat 39
def dquoteChar : Char := Char.ofNat 34

/-- Python whitespace for `str.strip` / `str.split` / regex `\s`. -/
def isPySpace (c : Char) : Bool :=
  c = ' ' || c = '\t' || c = '\n' || c = '\r' || c = '\x0b' || c = '\x0c'

def trimLeft (s : Str) : Str := s.dropWhile isPySpace

def trimRight (s : Str) : Str := (s.reverse.dropWhile isPySpace).reverse

/-- Python `str.strip()`. -/
def pyStrip (s : Str) : Str := trimRight (trimLeft s)

/-- Python `content.split("\n")`. -/
def splitOnNl : Str → List Str
  | [] => [[]]
  | c :: cs =>
    if c = '\n' then [] :: splitOnNl cs
    else
      match splitOnNl cs with
      | l :: ls => (c :: l) :: ls
      | [] => [[c]]

/-- Python `"\n".join(lines)`. -/
def joinNl (lines : List Str) : Str := List.intercalate (S "\n") lines

/-- Python `str.lower()` (ASCII model, which covers every string the
validator's constants and claims involve). -/
def pyLower (s : Str) : Str := s.map Char.toLower

/-- Python substring test `needle in hay`. -/
def isSubstr (needle : Str) : Str → Bool
  | [] => needle.isPrefixOf []
  | c :: cs => needle.isPrefixOf (c :: cs) || isSubstr needle cs

def splitWsAux : Str → Str → List Str
  | [], acc => if acc = [] then [] else [acc.reverse]
  | c :: cs, acc =>
    if isPySpace c then
      if acc = [] then splitWsAux cs [] else acc.reverse :: splitWsAux cs []
    else splitWsAux cs (c :: acc)

/-- Python `str.split()` with no separator: split on whitespace runs,
dropping empty tokens. -/
def pySplitWs (s : Str) : List Str := splitWsAux s []

/-- Values that can appear in a parsed frontmatter mapping.  YAML block
sequences in this program's documents are sequences of scalars, so list
values carry strings. -/
inductive PyValue where
  | str (s : Str)
  | int (n : Int)
  | bool (b : Bool)
  | list (xs : List Str)
  | none
deriving DecidableEq

/-- Python truthiness of a `PyValue`. -/
def pyTruthy : PyValue → Bool
  | .str s => decide (s ≠ [])
  | .int n => decide (n ≠ 0)
  | .bool b => b
  | .list xs => decide (xs ≠ [])
  | .none => false

/-- Python `type(v).__name__`. -/
def pyTypeName : PyValue → Str
  | .str _ => S "str"
  | .int _ => S "int"
  | .bool _ => S "bool"
  | .list _ => S "list"
  | .none => S "NoneType"

/-- Python `len(v)`: `Option.none` models a `TypeError`. -/
def pyLen : PyValue → Option Nat
  | .str s => some s.length
  | .list xs => some xs.length
  | _ => Option.none

abbrev PyDict := List (Str × PyValue)

/-- Python `dict` assignment `d[k] = v`: update in place if present,
else append. -/
def dictInsert (d : PyDict) (k : Str) (v : PyValue) : PyDict :=
  if d.any (fun kv => decide (kv.1 = k)) then
    d.map (fun kv => if kv.1 = k then (kv.1, v) else kv)
  else d ++ [(k, v)]

/-- Python `d.get(k)`. -/
def dictGet (d : PyDict) (k : Str) : Option PyValue :=
  (d.find? (fun kv => decide (kv.1 = k))).map Prod.snd

/-- `_normalize_yaml_value`: strip, then remove one layer of matching
outer quote characters. -/
def normalize_yaml_value (value : Str) : Str :=
  let v := pyStrip value
  if ([dquoteChar].isPrefixOf v && [dquoteChar].isSuffixOf v) ||
     ([squoteChar].isPrefixOf v && [squoteChar].isSuffixOf v) then
    (v.drop 1).dropLast
  else v

/-- Regex `[a-zA-Z_]`. -/
def isKeyStart (c : Char) : Bool :=
  ('a' ≤ c && c ≤ 'z') || ('A' ≤ c && c ≤ 'Z') || c = '_'

/-- Regex `[a-zA-Z0-9_]`. -/
def isKeyChar (c : Char) : Bool :=
  isKeyStart c || ('0' ≤ c && c ≤ '9')

/-- The fallback parser's line regex
`^([a-zA-Z_][a-zA-Z0-9_]*)\s*:\s*(.*)$`, returning the key and value
groups on a match. -/
def keyMatchFallback (line : Str) : Option (Str × Str) :=
  match line with
  | [] => Option.none
  | c :: cs =>
    if isKeyStart c then
      let key := c :: cs.takeWhile isKeyChar
      let rest := (cs.dropWhile isKeyChar).dropWhile isPySpace
      match rest with
      | ':' :: r => some (key, r.dropWhile isPySpace)
      | _ => Option.none
    else Option.none

/-- Pending key flush of `_parse_simple_frontmatter`. -/
def flushCur (fm : PyDict) : Option (Str × List Str) → PyDict
  | Option.none => fm
  | some (k, vls) => dictInsert fm k (.str (normalize_yaml_value (joinNl vls)))

def parseFMAux (fm : PyDict) (cur : Option (Str × List Str)) : List Str → PyDict
  | [] => flushCur fm cur
  | line :: rest =>
    match keyMatchFallback line with
    | some (k, v) => parseFMAux (flushCur fm cur) (some (k, [v])) rest
    | Option.none =>
      match cur with
      | some (ck, vls) =>
        if (S "  ").isPrefixOf line || (S "\t").isPrefixOf line then
          parseFMAux fm (some (ck, vls ++ [pyStrip line])) rest
        else parseFMAux fm (some (ck, vls)) rest
      | Option.none => parseFMAux fm Option.none rest

/-- `_parse_simple_frontmatter`: the fallback parser used when PyYAML is
unavailable. -/
def parse_simple_frontmatter (lines : List Str) : PyDict :=
  parseFMAux [] Option.none lines

/-- A block-sequence item line: its stripped form begins with a hyphen
and a space; returns the item text. -/
def seqItemBody (line : Str) : Option Str :=
  match pyStrip line with
  | '-' :: ' ' :: rest => some rest
  | _ => Option.none

def isSeqItemLine (line : Str) : Bool := (seqItemBody line).isSome

/-- Split a line at the first colon that is followed by a space character
or ends the line, returning the text before it and after it. -/
def splitColon : Str → Option (Str × Str)
  | [] => Option.none
  | c :: cs =>
    if c = ':' && (cs = [] || (cs.head?.map isPySpace).getD false) then
      some ([], cs)
    else (splitColon cs).map (fun p => (c :: p.1, p.2))

/-- Key split for the modelled strict parser: strip the text before the
colon; an empty key is no split. -/
def yamlKeySplit (line : Str) : Option (Str × Str) :=
  (splitColon line).bind
    (fun p => if pyStrip p.1 = [] then Option.none else some (pyStrip p.1, p.2))

/-- Result of loading a metadata block with the strict parser. -/
inductive YamlVal where
  | null
  | mapping (d : PyDict)
  | scalar
deriving DecidableEq

/-- Close a pending key that was awaiting block-sequence items: no item
means a null value, otherwise a sequence value. -/
def flushPend (fm : PyDict) : Option (Str × List Str) → PyDict
  | Option.none => fm
  | some (k, items) =>
    if items.isEmpty then dictInsert fm k .none
    else dictInsert fm k (.list items)

def yamlLoadAux (fm : PyDict) (pend : Option (Str × List Str)) :
    List Str → Except Str YamlVal
  | [] =>
    .ok (if (flushPend fm pend).isEmpty then .null
         else .mapping (flushPend fm pend))
  | line :: rest =>
    if pyStrip line = [] then yamlLoadAux (flushPend fm pend) Option.none rest
    else
      match seqItemBody line with
      | some item =>
        match pend with
        | some (k, items) =>
          yamlLoadAux fm (some (k, items ++ [normalize_yaml_value item])) rest
        | Option.none =>
          if fm.isEmpty then .ok .scalar else .error (S "parse")
      | Option.none =>
        let fm' := flushPend fm pend
        match yamlKeySplit line with
        | Option.none => if fm'.isEmpty then .ok .scalar else .error (S "parse")
        | some (k, vraw) =>
          if pyStrip vraw = [] then yamlLoadAux fm' (some (k, [])) rest
          else
            yamlLoadAux (dictInsert fm' k (.str (normalize_yaml_value vraw)))
              Option.none rest

/-- Modelled from the spec: the strict metadata parser (PyYAML
`safe_load`) is not part of the repository; per section 4.1 it
understands standard mapping-of-scalars-and-sequences syntax including
quoted strings, fails with a parse error on malformed input, loads an
empty block as null, and loads a non-mapping document (a bare scalar or
top-level sequence) as a non-mapping value.  A mapping block is flat
`key: value` lines, where an empty value followed by `- item` lines
yields a sequence of scalars and an empty value alone yields null.
Nested mappings and typed scalars are outside what the spec describes
and are not modelled. -/
def yamlSafeLoad (lines : List Str) : Except Str YamlVal :=
  yamlLoadAux [] Option.none lines

/-- Index of the first line whose stripped form is the closing `---`
marker (the loop at lines 109-112 of the source). -/
def findCloseIdx : List Str → Option Nat
  | [] => Option.none
  | l :: rest =>
    if pyStrip l = S "---" then some 0
    else (findCloseIdx rest).map (· + 1)

/-- `extract_frontmatter`.  The flag says whether the strict parser
(PyYAML) is available; `False` selects `_parse_simple_frontmatter`. -/
def extract_frontmatter (useYaml : Bool) (content : Str) :
    Except Str (PyDict × Str) :=
  if ¬ (S "---").isPrefixOf (pyStrip content) then
    .error (S "Missing YAML frontmatter (file must start with ---)")
  else
    let lines := splitOnNl content
    match findCloseIdx (lines.drop 1) with
    | Option.none => .error (S "Invalid YAML frontmatter (missing closing ---)")
    | some j =>
      let fmLines := (lines.drop 1).take j
      let body := joinNl ((lines.drop 1).drop (j + 1))
      if useYaml then
        match yamlSafeLoad fmLines with
        | .error e => .error (S "Invalid YAML in frontmatter: " ++ e)
        | .ok .null => .ok ([], body)
        | .ok (.mapping d) => .ok (d, body)
        | .ok .scalar => .error (S "Frontmatter must be a YAML mapping")
      else .ok (parse_simple_frontmatter fmLines, body)

/-- `ValidationIssue` dataclass: level is "error" or "warning". -/
structure ValidationIssue where
  level : Str
  field : Str
  message : Str
deriving DecidableEq

def NAME_MAX_LENGTH : Nat := 64

def DESCRIPTION_MAX_LENGTH : Nat := 1024

def RESERVED_WORDS : List Str := [S "anthropic", S "claude"]

def ALLOWED_FRONTMATTER_PROPERTIES : List Str :=
  [S "name", S "description", S "license", S "allowed-tools", S "metadata"]

/-- Regex `[a-z0-9]`. -/
def isLowerAlnum (c : Char) : Bool :=
  ('a' ≤ c && c ≤ 'z') || ('0' ≤ c && c ≤ '9')

/-- Regex `[a-z0-9-]`. -/
def isNameChar (c : Char) : Bool := isLowerAlnum c || c = '-'

def namePatternTail : Str → Bool
  | [] => false
  | [c] => isLowerAlnum c
  | c :: cs => isNameChar c && namePatternTail cs

/-- `NAME_PATTERN`: regex `^[a-z0-9][a-z0-9-]*[a-z0-9]$|^[a-z0-9]$`. -/
def namePatternMatch : Str → Bool
  | [] => false
  | [c] => isLowerAlnum c
  | c :: cs => isLowerAlnum c && namePatternTail cs

/-- Regex `^[a-z0-9-]+$`. -/
def nameAlphabetMatch (s : Str) : Bool := decide (s ≠ []) && s.all isNameChar

/-- Python string `<` comparison (lexicographic by code point). -/
def lexLe : Str → Str → Bool
  | [], _ => true
  | _ :: _, [] => false
  | a :: as', b :: bs => if a = b then lexLe as' bs else decide (a < b)

def insertSortedStr (x : Str) : List Str → List Str
  | [] => [x]
  | y :: ys => if lexLe x y then x :: y :: ys else y :: insertSortedStr x ys

/-- Python `sorted` on a list of strings. -/
def sortedStr : List Str → List Str
  | [] => []
  | x :: xs => insertSortedStr x (sortedStr xs)

/-- Python `", ".join(items)`. -/
def joinCommaSp (items : List Str) : Str := List.intercalate (S ", ") items

/-- `validate_frontmatter_properties`. -/
def validate_frontmatter_properties (frontmatter : PyDict) : List ValidationIssue :=
  let unexpected := sortedStr ((frontmatter.map Prod.fst).filter
    (fun k => decide (¬ k ∈ ALLOWED_FRONTMATTER_PROPERTIES)))
  if unexpected = [] then []
  else
    [⟨S "error", S "frontmatter",
      S "Unexpected frontmatter properties: " ++ joinCommaSp unexpected ++
      S ". Allowed: " ++ joinCommaSp (sortedStr ALLOWED_FRONTMATTER_PROPERTIES)⟩]

/-- The format-diagnosis step of `validate_name` (source lines 170-178):
run when the name fails `NAME_PATTERN`. -/
def nameFormatDiagnosis (s : Str) : List ValidationIssue :=
  if s ≠ pyLower s then
    [⟨S "error", S "name", S "Field \x27name\x27 must be lowercase"⟩]
  else if ' ' ∈ s then
    [⟨S "error", S "name", S "Field \x27name\x27 cannot contain spaces (use hyphens)"⟩]
  else if '_' ∈ s then
    [⟨S "warning", S "name",
      S "Field \x27name\x27 uses underscores (prefer hyphens for consistency)"⟩]
  else if ¬ nameAlphabetMatch s then
    [⟨S "error", S "name",
      S "Field \x27name\x27 must contain only lowercase letters, numbers, and hyphens"⟩]
  else []

/-- `validate_name`. -/
def validate_name (name : Option PyValue) : List ValidationIssue :=
  match name with
  | Option.none =>
    [⟨S "error", S "name", S "Required field \x27name\x27 is missing"⟩]
  | some v =>
    if ¬ pyTruthy v then
      [⟨S "error", S "name", S "Required field \x27name\x27 is missing"⟩]
    else
      match v with
      | .str s =>
        (if NAME_MAX_LENGTH < s.length then
          [⟨S "error", S "name",
            S "Field \x27name\x27 exceeds 64 characters (got " ++
            S (toString s.length) ++ S ")"⟩]
         else []) ++
        (if ¬ namePatternMatch s then nameFormatDiagnosis s else []) ++
        (RESERVED_WORDS.filterMap (fun w =>
          if isSubstr w (pyLower s) then
            some ⟨S "error", S "name",
              S "Field \x27name\x27 cannot contain reserved word \x27" ++ w ++ S "\x27"⟩
          else Option.none)) ++
        (if '<' ∈ s ∨ '>' ∈ s then
          [⟨S "error", S "name", S "Field \x27name\x27 cannot contain XML tags"⟩]
         else [])
      | v =>
        [⟨S "error", S "name",
          S "Field \x27name\x27 must be a string, got " ++ pyTypeName v⟩]

/-- `validate_description`. -/
def validate_description (description : Option PyValue) : List ValidationIssue :=
  match description with
  | Option.none =>
    [⟨S "error", S "description", S "Required field \x27description\x27 is missing"⟩]
  | some v =>
    if ¬ pyTruthy v then
      [⟨S "error", S "description", S "Required field \x27description\x27 is missing"⟩]
    else
      match v with
      | .str s =>
        if pyStrip s = [] then
          [⟨S "error", S "description", S "Field \x27description\x27 cannot be empty"⟩]
        else
          (if DESCRIPTION_MAX_LENGTH < s.length then
            [⟨S "error", S "description",
              S "Field \x27description\x27 exceeds 1024 characters (got " ++
              S (toString s.length) ++ S ")"⟩]
           else []) ++
          (if '<' ∈ s ∨ '>' ∈ s then
            [⟨S "error", S "description",
              S "Field \x27description\x27 cannot contain XML tags"⟩]
           else []) ++
          (if s.length < 50 then
            [⟨S "warning", S "description",
              S "Field \x27description\x27 is quite short - consider adding more detail"⟩]
           else []) ++
          (if ¬ ([S "when", S "use this", S "should be used", S "helps with", S "for"].any
                  (fun ind => isSubstr ind (pyLower s))) then
            [⟨S "warning", S "description",
              S "Description lacks trigger phrases - consider explaining when to use this skill"⟩]
           else [])
      | v =>
        [⟨S "error", S "description",
          S "Field \x27description\x27 must be a string, got " ++ pyTypeName v⟩]

/-- `validate_body`. -/
def validate_body (body : Str) : List ValidationIssue :=
  if body = [] ∨ pyStrip body = [] then
    [⟨S "error", S "body", S "Skill body content is empty"⟩]
  else
    let word_count := (pySplitWs body).length
    (if word_count < 100 then
      [⟨S "warning", S "body",
        S "Skill body is quite short (" ++ S (toString word_count) ++
        S " words) - consider adding more detail"⟩]
     else if 5000 < word_count then
      [⟨S "warning", S "body",
        S "Skill body is very long (" ++ S (toString word_count) ++
        S " words) - consider moving details to references/"⟩]
     else []) ++
    (if ¬ ([S "## example", S "### example", S "example:", S "examples",
            S "core tasks", S "workflow"].any
            (fun m => isSubstr m (pyLower body))) then
      [⟨S "warning", S "body",
        S "No examples or task/workflow guidance found - consider adding short examples or task steps"⟩]
     else [])

/-- `ValidationResult` dataclass.  `issues` holds the errors (the JSON
serializer emits it under the key `errors`). -/
structure ValidationResult where
  valid : Bool
  skill_path : Str
  name : Option PyValue
  description : Option PyValue
  issues : List ValidationIssue
  warnings : List ValidationIssue
deriving DecidableEq

instance {ε α : Type} [DecidableEq ε] [DecidableEq α] :
    DecidableEq (Except ε α) := fun x y =>
  match x, y with
  | .ok a, .ok b =>
    if h : a = b then isTrue (by rw [h])
    else isFalse (by intro hc; cases hc; exact h rfl)
  | .error a, .error b =>
    if h : a = b then isTrue (by rw [h])
    else isFalse (by intro hc; cases hc; exact h rfl)
  | .ok _, .error _ => isFalse (by intro hc; cases hc)
  | .error _, .ok _ => isFalse (by intro hc; cases hc)

/-- Filesystem model: a path maps to `some (some content)` when the file
exists and is readable, `some Option.none` when it exists but reading
raises, and is absent otherwise. -/
structure FS where
  files : List (Str × Option Str)
deriving DecidableEq

/-- Python `os.path.exists` over the modelled files. -/
def fsExists (fs : FS) (p : Str) : Bool :=
  (fs.files.find? (fun kv => decide (kv.1 = p))).isSome

/-- Reading a file: `Option.none` models an `open`/`read` exception. -/
def fsRead (fs : FS) (p : Str) : Option Str :=
  ((fs.files.find? (fun kv => decide (kv.1 = p))).map Prod.snd).bind id

/-- Python `os.path.join(dir, name)` for the relative names this program
joins. -/
def joinPath (dir name : Str) : Str := dir ++ '/' :: name

/-- The display truncation of the description on line 348 of the source:
`description[:100] + "..." if description and len(description) > 100 else
description`.  `Except.error ()` models the `TypeError` raised when
`len` or `+` is applied to a value of the wrong type. -/
def truncateDescription : Option PyValue → Except Unit (Option PyValue)
  | Option.none => .ok Option.none
  | some v =>
    if ¬ pyTruthy v then .ok (some v)
    else
      match v with
      | .str s =>
        if 100 < s.length then .ok (some (.str (s.take 100 ++ S "...")))
        else .ok (some (.str s))
      | .list xs => if 100 < xs.length then .error () else .ok (some (.list xs))
      | _ => .error ()

def pyyamlMissingWarning : ValidationIssue :=
  ⟨S "warning", S "frontmatter",
   S "PyYAML not installed; using simplified parser. Install PyYAML for full YAML support."⟩

/-- `validate_skill_file`.  The result is `Except.error ()` when the
Python code would raise an uncaught exception. -/
def validate_skill_file (useYaml : Bool) (fs : FS) (file_path : Str) :
    Except Unit ValidationResult :=
  if ¬ fsExists fs file_path then
    .ok ⟨false, file_path, Option.none, Option.none,
         [⟨S "error", S "file", S "File not found: " ++ file_path⟩], []⟩
  else
    match fsRead fs file_path with
    | Option.none =>
      .ok ⟨false, file_path, Option.none, Option.none,
           [⟨S "error", S "file", S "Failed to read file: exception"⟩], []⟩
    | some content =>
      match extract_frontmatter useYaml content with
      | .error fm_error =>
        .ok ⟨false, file_path, Option.none, Option.none,
             [⟨S "error", S "frontmatter", fm_error⟩], []⟩
      | .ok (frontmatter, body) =>
        let warnings0 := if useYaml then [] else [pyyamlMissingWarning]
        let all_issues :=
          validate_frontmatter_properties frontmatter ++
          validate_name (dictGet frontmatter (S "name")) ++
          validate_description (dictGet frontmatter (S "description")) ++
          validate_body body
        let issues := all_issues.filter (fun i => decide (i.level = S "error"))
        let warnings :=
          warnings0 ++ all_issues.filter (fun i => decide (¬ i.level = S "error"))
        match truncateDescription (dictGet frontmatter (S "description")) with
        | .error e => .error e
        | .ok desc =>
          .ok ⟨issues.isEmpty, file_path, dictGet frontmatter (S "name"),
               desc, issues, warnings⟩

/-- The reference pattern: regex `` `([^`]+\.(md|py|sh|json))` `` applied
by `re.findall`.  A candidate span (text between two backticks) matches
when it ends in one of the four extensions with at least one character
before the dot. -/
def refSpanMatch (span : Str) : Bool :=
  ((S ".md").isSuffixOf span && 3 < span.length) ||
  ((S ".py").isSuffixOf span && 3 < span.length) ||
  ((S ".sh").isSuffixOf span && 3 < span.length) ||
  ((S ".json").isSuffixOf span && 5 < span.length)

/-- Scanner state for `findRefs`: `some revSpan` when inside a pair of
backticks, holding the characters seen so far in reverse. -/
def findRefsAux (st : Option Str) : Str → List Str
  | [] => []
  | c :: cs =>
    match st with
    | Option.none =>
      if c = backtickChar then findRefsAux (some []) cs
      else findRefsAux Option.none cs
    | some rs =>
      if c = backtickChar then
        let span := rs.reverse
        if refSpanMatch span then span :: findRefsAux Option.none cs
        else findRefsAux (some []) cs
      else findRefsAux (some (c :: rs)) cs

/-- `re.findall` of the reference pattern over the file content: a match
consumes its closing backtick; the closing backtick of a failed
candidate can open the next candidate, exactly as the regex engine
rescans from the next position. -/
def findRefs (content : Str) : List Str := findRefsAux Option.none content

/-- The reference-existence pass of `validate_skill_directory` (source
lines 391-398): one Warning per referenced path missing on disk. -/
def referenceWarnings (fs : FS) (dir_path content : Str) : List ValidationIssue :=
  (findRefs content).filterMap (fun ref =>
    if fsExists fs (joinPath dir_path ref) then Option.none
    else some ⟨S "warning", S "references",
               S "Referenced file not found: " ++ ref⟩)

/-- `validate_skill_directory`. -/
def validate_skill_directory (useYaml : Bool) (fs : FS) (dir_path : Str) :
    Except Unit ValidationResult :=
  let skill_md_path := joinPath dir_path (S "SKILL.md")
  if ¬ fsExists fs skill_md_path then
    .ok ⟨false, dir_path, Option.none, Option.none,
         [⟨S "error", S "structure", S "No SKILL.md found in " ++ dir_path⟩], []⟩
  else
    match validate_skill_file useYaml fs skill_md_path with
    | .error e => .error e
    | .ok result =>
      let additional_warnings :=
        match fsRead fs skill_md_path with
        | Option.none => []
        | some content => referenceWarnings fs dir_path content
      .ok { result with warnings := result.warnings ++ additional_warnings }

def exceptOk {ε α : Type} : Except ε α → Bool
  | .ok _ => true
  | .error _ => false

/-- The C1 failing input: a document whose frontmatter description is a
block sequence of 101 scalar items. -/
def c1Content : Str :=
  S "---\ndescription:\n" ++ (List.replicate 101 (S "- x\n")).flatten ++
  S "---\nbody text"

def c1FS : FS := ⟨[(S "SKILL.md", some c1Content)]⟩

def c1DirFS : FS := ⟨[(S "d/SKILL.md", some c1Content)]⟩

/-- The C3 document: minimal frontmatter plus a 150-word body. -/
def c3Content : Str :=
  S "---\nname: my-skill\ndescription: Use this when doing X.\n---\n" ++
  (List.replicate 150 (S "word ")).flatten

def c3FS : FS := ⟨[(S "SKILL.md", some c3Content)]⟩

def c3Result : ValidationResult :=
  ⟨true, S "SKILL.md", some (.str (S "my-skill")),
   some (.str (S "Use this when doing X.")), [],
   [⟨S "warning", S "description",
     S "Field \x27description\x27 is quite short - consider adding more detail"⟩,
    ⟨S "warning", S "body",
     S "No examples or task/workflow guidance found - consider adding short examples or task steps"⟩]⟩

def c5FS : FS :=
  ⟨[(S "d/SKILL.md", some (S "see `scripts/run.py` for details"))]⟩

/-- A key acceptable to both parsers: nonempty, `[a-zA-Z_]` first,
`[a-zA-Z0-9_]` throughout. -/
def plainScalarKey (k : Str) : Prop :=
  (∃ c cs, k = c :: cs ∧ isKeyStart c = true) ∧ ∀ c ∈ k, isKeyChar c = true

/-- A plain scalar `key: value` line: the key, one colon, one space, and
a value that is nonempty after stripping. -/
def scalarLine (l : Str) : Prop :=
  ∃ k v, l = k ++ ':' :: ' ' :: v ∧ plainScalarKey k ∧ pyStrip v ≠ []

/-- The common fold both parsers compute on plain scalar lines. -/
def scalarFold (fm : PyDict) : List Str → PyDict
  | [] => fm
  | l :: rest =>
    scalarFold
      (match keyMatchFallback l with
       | some (k, v) => dictInsert fm k (.str (normalize_yaml_value v))
       | Option.none => fm) rest

/- Supporting lemmas. -/


theorem pySpace_cases {c : Char} (h : isPySpace c = true) :
    c = ' ' ∨ c = '\t' ∨ c = '\n' ∨ c = '\r' ∨ c = '\x0b' ∨ c = '\x0c' := by
  unfold isPySpace at h
  simp only [Bool.or_eq_true, decide_eq_true_eq] at h
  tauto

theorem keyChar_not_space {c : Char} (h : isKeyChar c = true) : isPySpace c = false := by
  by_contra hc
  rw [Bool.not_eq_false] at hc
  rcases pySpace_cases hc with rfl | rfl | rfl | rfl | rfl | rfl <;>
    exact absurd h (by decide)

theorem keyChar_ne_colon {c : Char} (h : isKeyChar c = true) : c ≠ ':' := by
  intro hc
  subst hc
  exact absurd h (by decide)

theorem keyStart_isKeyChar {c : Char} (h : isKeyStart c = true) : isKeyChar c = true := by
  unfold isKeyChar
  rw [h]
  rfl

theorem keyStart_ne_hyphen {c : Char} (h : isKeyStart c = true) : c ≠ '-' := by
  intro hc
  subst hc
  exact absurd h (by decide)

theorem dropWhile_of_all_false {p : Char → Bool} {s : Str}
    (h : ∀ c ∈ s, p c = false) : s.dropWhile p = s := by
  cases s with
  | nil => rfl
  | cons c cs =>
    rw [List.dropWhile_cons, h c (List.mem_cons_self c cs)]
    simp

theorem takeWhile_append_all {p : Char → Bool} {xs ys : Str}
    (h : ∀ c ∈ xs, p c = true) : (xs ++ ys).takeWhile p = xs ++ ys.takeWhile p := by
  induction xs with
  | nil => rfl
  | cons c cs ih =>
    rw [List.cons_append, List.takeWhile_cons, h c (List.mem_cons_self c cs)]
    simp only [if_pos rfl]
    rw [ih (fun c' hc' => h c' (List.mem_cons_of_mem c hc'))]
    simp

theorem dropWhile_append_all {p : Char → Bool} {xs ys : Str}
    (h : ∀ c ∈ xs, p c = true) : (xs ++ ys).dropWhile p = ys.dropWhile p := by
  induction xs with
  | nil => rfl
  | cons c cs ih =>
    rw [List.cons_append, List.dropWhile_cons, h c (List.mem_cons_self c cs)]
    simp only []
    exact ih (fun c' hc' => h c' (List.mem_cons_of_mem c hc'))

theorem trimLeft_of_head_false {c : Char} {cs : Str} (h : isPySpace c = false) :
    trimLeft (c :: cs) = c :: cs := by
  unfold trimLeft
  rw [List.dropWhile_cons, h]
  simp

theorem trimLeft_cons_space {c : Char} {cs : Str} (h : isPySpace c = true) :
    trimLeft (c :: cs) = trimLeft cs := by
  unfold trimLeft
  rw [List.dropWhile_cons, h]
  simp

theorem trimRight_cons {c : Char} {cs : Str}
    (h : trimRight cs ≠ [] ∨ isPySpace c = false) :
    trimRight (c :: cs) = c :: trimRight cs := by
  unfold trimRight at *
  rw [List.reverse_cons, List.dropWhile_append]
  rcases h with h | h
  · have hne : ¬ (cs.reverse.dropWhile isPySpace).isEmpty = true := by
      intro he
      rw [List.isEmpty_iff] at he
      rw [he] at h
      exact h rfl
    rw [if_neg hne]
    simp
  · by_cases he : (cs.reverse.dropWhile isPySpace).isEmpty = true
    · rw [if_pos he, List.dropWhile_cons, h]
      rw [List.isEmpty_iff] at he
      rw [he]
      simp
    · rw [if_neg he]
      simp

theorem strip_of_no_space {s : Str} (h : ∀ c ∈ s, isPySpace c = false) :
    pyStrip s = s := by
  unfold pyStrip
  rw [show trimLeft s = s from dropWhile_of_all_false h]
  unfold trimRight
  rw [dropWhile_of_all_false (fun c hc => h c (List.mem_reverse.mp hc))]
  simp

theorem strip_cons_space {c : Char} {s : Str} (h : isPySpace c = true) :
    pyStrip (c :: s) = pyStrip s := by
  unfold pyStrip
  rw [trimLeft_cons_space h]

theorem trimLeft_idem (s : Str) : trimLeft (trimLeft s) = trimLeft s := by
  induction s with
  | nil => rfl
  | cons c cs ih =>
    by_cases h : isPySpace c = true
    · rw [trimLeft_cons_space h, ih]
    · rw [Bool.not_eq_true] at h
      rw [trimLeft_of_head_false h, trimLeft_of_head_false h]

theorem strip_trimLeft (s : Str) : pyStrip (trimLeft s) = pyStrip s := by
  unfold pyStrip
  rw [trimLeft_idem]

theorem joinNl_singleton (v : Str) : joinNl [v] = v := by
  unfold joinNl
  simp [List.intercalate]

theorem normalize_congr {a b : Str} (h : pyStrip a = pyStrip b) :
    normalize_yaml_value a = normalize_yaml_value b := by
  unfold normalize_yaml_value
  rw [h]

/-- C7 counterexample: the name "-abc" fails `NAME_PATTERN` but the
format-diagnosis step emits no issue at all (and `validate_name` emits
none either), refuting "exactly one Issue for every pattern-failing
name". -/
theorem c7_counterexample :
    namePatternMatch (S "-abc") = false ∧
    nameFormatDiagnosis (S "-abc") = [] ∧
    validate_name (some (.str (S "-abc"))) = [] := by decide

/-- C7 (amended): when a name fails `NAME_PATTERN` and at least one of
the four diagnosable causes applies, the diagnosis step emits exactly
one Issue for the first applicable cause, in the priority order
uppercase (Error), space (Error), underscore (Warning), character
outside the name alphabet (Error); when no cause applies it emits
nothing; and for "My_Skill!" the whole name rule emits exactly the
"must be lowercase" Error. -/
theorem c7_theorem :
    (∀ s : Str, namePatternMatch s = false →
      (s ≠ pyLower s →
        nameFormatDiagnosis s =
          [⟨S "error", S "name", S "Field \x27name\x27 must be lowercase"⟩]) ∧
      (s = pyLower s → ' ' ∈ s →
        nameFormatDiagnosis s =
          [⟨S "error", S "name",
            S "Field \x27name\x27 cannot contain spaces (use hyphens)"⟩]) ∧
      (s = pyLower s → ' ' ∉ s → '_' ∈ s →
        nameFormatDiagnosis s =
          [⟨S "warning", S "name",
            S "Field \x27name\x27 uses underscores (prefer hyphens for consistency)"⟩]) ∧
      (s = pyLower s → ' ' ∉ s → '_' ∉ s → nameAlphabetMatch s = false →
        nameFormatDiagnosis s =
          [⟨S "error", S "name",
            S "Field \x27name\x27 must contain only lowercase letters, numbers, and hyphens"⟩]) ∧
      (s = pyLower s → ' ' ∉ s → '_' ∉ s → nameAlphabetMatch s = true →
        nameFormatDiagnosis s = [])) ∧
    validate_name (some (.str (S "My_Skill!"))) =
      [⟨S "error", S "name", S "Field \x27name\x27 must be lowercase"⟩] := by
  constructor
  · intro s _
    refine ⟨?_, ?_, ?_, ?_, ?_⟩
    · intro h1
      unfold nameFormatDiagnosis
      rw [if_pos h1]
    · intro h1 h2
      unfold nameFormatDiagnosis
      rw [if_neg (not_not_intro h1), if_pos h2]
    · intro h1 h2 h3
      unfold nameFormatDiagnosis
      rw [if_neg (not_not_intro h1), if_neg h2, if_pos h3]
    · intro h1 h2 h3 h4
      unfold nameFormatDiagnosis
      rw [if_neg (not_not_intro h1), if_neg h2, if_neg h3,
          if_pos (by simp [h4] : ¬ nameAlphabetMatch s = true)]
    · intro h1 h2 h3 h4
      unfold nameFormatDiagnosis
      rw [if_neg (not_not_intro h1), if_neg h2, if_neg h3,
          if_neg (not_not_intro h4)]
  · decide

theorem c7_witness :
    nameFormatDiagnosis (S "my skill") =
      [⟨S "error", S "name",
        S "Field \x27name\x27 cannot contain spaces (use hyphens)"⟩] :=
  (c7_theorem.1 (S "my skill") (by decide)).2.1 (by decide) (by decide)

/-- C8: every string name of length at least 65 over the valid-name
alphabet makes `validate_name` emit the too-long Error, whatever else
the name looks like. -/
theorem c8_theorem (s : Str) (h1 : 65 ≤ s.length)
    (h2 : ∀ c ∈ s, isNameChar c = true) :
    (⟨S "error", S "name",
      S "Field \x27name\x27 exceeds 64 characters (got " ++
      S (toString s.length) ++ S ")"⟩ : ValidationIssue) ∈
    validate_name (some (.str s)) := by
  have hne : s ≠ [] := by
    intro h
    subst h
    simp at h1
  have ht : pyTruthy (.str s) = true := by simp [pyTruthy, hne]
  have h64 : NAME_MAX_LENGTH < s.length := by
    unfold NAME_MAX_LENGTH
    omega
  simp only [validate_name, ht, not_true, if_false, if_pos h64]
  exact List.mem_append_left _ (List.mem_cons_self _ _)

theorem c8_witness :
    (⟨S "error", S "name",
      S "Field \x27name\x27 exceeds 64 characters (got " ++
      S (toString (List.replicate 65 'a').length) ++ S ")"⟩ : ValidationIssue) ∈
    validate_name (some (.str (List.replicate 65 'a'))) :=
  c8_theorem (List.replicate 65 'a') (by simp) (by decide)

/-- C10: a falsy non-string name value yields only the missing-field
Error; a truthy non-string value yields only the type Error. -/
theorem c10_theorem (v : PyValue) :
    (pyTruthy v = false →
      validate_name (some v) =
        [⟨S "error", S "name", S "Required field \x27name\x27 is missing"⟩]) ∧
    (pyTruthy v = true → (∀ s, v ≠ .str s) →
      validate_name (some v) =
        [⟨S "error", S "name",
          S "Field \x27name\x27 must be a string, got " ++ pyTypeName v⟩]) := by
  constructor
  · intro h
    simp [validate_name, h]
  · intro h hns
    cases v with
    | str s => exact absurd rfl (hns s)
    | int n => simp [validate_name, h, pyTypeName]
    | bool b => simp [validate_name, h, pyTypeName]
    | list xs => simp [validate_name, h, pyTypeName]
    | none => simp [validate_name, h, pyTypeName]

theorem c10_witness :
    validate_name (some (.bool false)) =
      [⟨S "error", S "name", S "Required field \x27name\x27 is missing"⟩] ∧
    validate_name (some (.int 0)) =
      [⟨S "error", S "name", S "Required field \x27name\x27 is missing"⟩] ∧
    validate_name (some (.list [])) =
      [⟨S "error", S "name", S "Required field \x27name\x27 is missing"⟩] ∧
    validate_name (some (.int 5)) =
      [⟨S "error", S "name",
        S "Field \x27name\x27 must be a string, got " ++ pyTypeName (.int 5)⟩] :=
  ⟨(c10_theorem (.bool false)).1 (by decide),
   (c10_theorem (.int 0)).1 (by decide),
   (c10_theorem (.list [])).1 (by decide),
   (c10_theorem (.int 5)).2 (by decide) (fun s h => by cases h)⟩

theorem dictInsert_mem {d : PyDict} {k : Str} {v : PyValue} {kv : Str × PyValue}
    (h : kv ∈ dictInsert d k v) : kv ∈ d ∨ kv.1 = k := by
  unfold dictInsert at h
  split at h
  · rcases List.mem_map.mp h with ⟨a, ha, hae⟩
    by_cases hk : a.1 = k
    · right
      rw [← hae]
      simp [hk]
    · left
      rw [← hae]
      simp only [if_neg hk]
      exact ha
  · rcases List.mem_append.mp h with h' | h'
    · left
      exact h'
    · right
      simp at h'
      rw [h']

theorem parseFMAux_nil (fm : PyDict) (cur : Option (Str × List Str)) :
    parseFMAux fm cur [] = flushCur fm cur := rfl

theorem parseFMAux_cons (fm : PyDict) (cur : Option (Str × List Str))
    (line : Str) (rest : List Str) :
    parseFMAux fm cur (line :: rest) =
      match keyMatchFallback line with
      | some (k, v) => parseFMAux (flushCur fm cur) (some (k, [v])) rest
      | Option.none =>
        match cur with
        | some (ck, vls) =>
          if (S "  ").isPrefixOf line || (S "\t").isPrefixOf line then
            parseFMAux fm (some (ck, vls ++ [pyStrip line])) rest
          else parseFMAux fm (some (ck, vls)) rest
        | Option.none => parseFMAux fm Option.none rest := rfl

theorem parseFMAux_key_src {kv : Str × PyValue} :
    ∀ {lines : List Str} {fm : PyDict} {cur : Option (Str × List Str)},
    kv ∈ parseFMAux fm cur lines →
    kv ∈ fm ∨ (∃ vls, cur = some (kv.1, vls)) ∨
    (∃ l ∈ lines, ∃ v, keyMatchFallback l = some (kv.1, v)) := by
  intro lines
  induction lines with
  | nil =>
    intro fm cur h
    rw [parseFMAux_nil] at h
    cases cur with
    | none => exact .inl h
    | some p =>
      obtain ⟨ck, vls⟩ := p
      unfold flushCur at h
      rcases dictInsert_mem h with h' | h'
      · exact .inl h'
      · exact .inr (.inl ⟨vls, by rw [h']⟩)
  | cons line rest ih =>
    intro fm cur h
    rw [parseFMAux_cons] at h
    cases hkm : keyMatchFallback line with
    | some p =>
      obtain ⟨k, v⟩ := p
      rw [hkm] at h
      rcases ih h with h' | h' | h'
      · cases cur with
        | none => exact .inl h'
        | some q =>
          obtain ⟨ck, cvls⟩ := q
          unfold flushCur at h'
          rcases dictInsert_mem h' with h'' | h''
          · exact .inl h''
          · exact .inr (.inl ⟨cvls, by rw [h'']⟩)
      · rcases h' with ⟨vls, hv⟩
        simp at hv
        exact .inr (.inr ⟨line, List.mem_cons_self _ _, v, by rw [hkm, hv.1]⟩)
      · rcases h' with ⟨l, hl, v', hv'⟩
        exact .inr (.inr ⟨l, List.mem_cons_of_mem _ hl, v', hv'⟩)
    | none =>
      rw [hkm] at h
      cases cur with
      | none =>
        rcases ih h with h' | h' | h'
        · exact .inl h'
        · rcases h' with ⟨vls, hv⟩
          cases hv
        · rcases h' with ⟨l, hl, v', hv'⟩
          exact .inr (.inr ⟨l, List.mem_cons_of_mem _ hl, v', hv'⟩)
      | some q =>
        obtain ⟨ck, cvls⟩ := q
        have h2 : kv ∈
            (if ((S "  ").isPrefixOf line || (S "\t").isPrefixOf line) = true then
              parseFMAux fm (some (ck, cvls ++ [pyStrip line])) rest
            else parseFMAux fm (some (ck, cvls)) rest) := h
        have hnext :
            kv ∈ parseFMAux fm (some (ck, cvls ++ [pyStrip line])) rest ∨
            kv ∈ parseFMAux fm (some (ck, cvls)) rest := by
          split at h2
          · exact .inl h2
          · exact .inr h2
        have hout : kv ∈ fm ∨ (∃ vls, some (ck, cvls) = some (kv.1, vls)) ∨
            (∃ l ∈ line :: rest, ∃ v, keyMatchFallback l = some (kv.1, v)) := by
          rcases hnext with h' | h' <;> rcases ih h' with h'' | h'' | h''
          · exact .inl h''
          · rcases h'' with ⟨vls, hv⟩
            simp at hv
            exact .inr (.inl ⟨cvls, by rw [hv.1]⟩)
          · rcases h'' with ⟨l, hl, v', hv'⟩
            exact .inr (.inr ⟨l, List.mem_cons_of_mem _ hl, v', hv'⟩)
          · exact .inl h''
          · rcases h'' with ⟨vls, hv⟩
            simp at hv
            exact .inr (.inl ⟨cvls, by rw [hv.1]⟩)
          · rcases h'' with ⟨l, hl, v', hv'⟩
            exact .inr (.inr ⟨l, List.mem_cons_of_mem _ hl, v', hv'⟩)
        exact hout

/-- C9: the fallback parser is a total function; every key of its output
comes from an input line matching the key regex
`^[a-zA-Z_][a-zA-Z0-9_]*\s*:`; and a `key: value` line whose key
contains a hyphen (such as the allow-listed `allowed-tools`) or any
other unrecognized non-indented line is silently dropped. -/
theorem c9_theorem :
    (∀ (lines : List Str) (kv : Str × PyValue),
       kv ∈ parse_simple_frontmatter lines →
       ∃ l ∈ lines, ∃ v, keyMatchFallback l = some (kv.1, v)) ∧
    parse_simple_frontmatter [S "allowed-tools: Bash"] = [] ∧
    parse_simple_frontmatter [S "name: x", S "!!garbage", S "allowed-tools: y"] =
      [(S "name", PyValue.str (S "x"))] := by
  refine ⟨?_, by decide, by decide⟩
  intro lines kv h
  rcases parseFMAux_key_src h with h' | h' | h'
  · cases h'
  · rcases h' with ⟨vls, hv⟩
    cases hv
  · exact h'

theorem c9_witness :
    ∃ l ∈ [S "name: x"], ∃ v,
      keyMatchFallback l = some ((S "name", PyValue.str (S "x")).1, v) :=
  c9_theorem.1 [S "name: x"] (S "name", PyValue.str (S "x")) (by decide)

/-- C1: on a document whose description is a 101-item sequence,
`validate_skill_file` (and `validate_skill_directory`) raises an
uncaught `TypeError` inside the display-truncation expression of the
result assembler, instead of returning the ValidationResult that
already carries the non-string-description Error. -/
theorem c1_theorem :
    validate_skill_file true c1FS (S "SKILL.md") = .error () ∧
    validate_skill_directory true c1DirFS (S "d") = .error () := by decide

/-- C3 counterexample: the concrete scenario-1 document does NOT
validate with zero warnings; its result carries a nonempty warning
list. -/
theorem c3_counterexample :
    validate_skill_file true c3FS (S "SKILL.md") = .ok c3Result ∧
    c3Result.warnings ≠ [] := by decide

/-- C3 (amended): the scenario-1 document yields valid=true with zero
errors and exactly two warnings: the description-too-short quality
warning (22 characters is below 50) and the no-examples/workflow-marker
warning. -/
theorem c3_theorem :
    validate_skill_file true c3FS (S "SKILL.md") = .ok c3Result ∧
    c3Result.valid = true ∧ c3Result.issues = [] ∧
    c3Result.warnings.length = 2 := by decide

/-- C5 counterexample: a directory whose SKILL.md has no frontmatter at
all (extraction fails, valid=false, name/description null) still gets
the backtick-reference pass: the missing `scripts/run.py` reference is
appended as a warning, so the scan does not run "only when the pipeline
succeeded" and the call does not return "with no reference-check
warnings". -/
theorem c5_counterexample :
    validate_skill_directory true c5FS (S "d") = .ok
      ⟨false, S "d/SKILL.md", Option.none, Option.none,
       [⟨S "error", S "frontmatter",
         S "Missing YAML frontmatter (file must start with ---)"⟩],
       [⟨S "warning", S "references",
         S "Referenced file not found: scripts/run.py"⟩]⟩ := by decide

theorem file_valid_invariant {b : Bool} {fs : FS} {p : Str}
    {r : ValidationResult} (h : validate_skill_file b fs p = .ok r) :
    r.valid = r.issues.isEmpty := by
  unfold validate_skill_file at h
  split at h
  · injection h with h'
    subst h'
    rfl
  · split at h
    · injection h with h'
      subst h'
      rfl
    · split at h
      · injection h with h'
        subst h'
        rfl
      · split at h <;> split at h
        · cases h
        · injection h with h'
          subst h'
          rfl
        · cases h
        · injection h with h'
          subst h'
          rfl

theorem fsExists_of_fsRead {fs : FS} {p : Str} {content : Str}
    (h : fsRead fs p = some content) : fsExists fs p = true := by
  unfold fsRead at h
  unfold fsExists
  cases hf : fs.files.find? (fun kv => decide (kv.1 = p)) with
  | none =>
    rw [hf] at h
    simp at h
  | some kv => rfl

/-- C5 (amended): whenever SKILL.md exists and is readable in the
directory, `validate_skill_directory` runs the reference pass on its
content unconditionally — also when frontmatter extraction failed — and
the returned result is the file-level result with the reference
warnings appended; the appended issues are always Warnings with field
"references", and errors/valid are untouched. -/
theorem c5_theorem (b : Bool) (fs : FS) (dir content : Str)
    (r : ValidationResult)
    (hread : fsRead fs (joinPath dir (S "SKILL.md")) = some content)
    (hdir : validate_skill_directory b fs dir = .ok r) :
    ∃ r₀, validate_skill_file b fs (joinPath dir (S "SKILL.md")) = .ok r₀ ∧
      r.issues = r₀.issues ∧ r.valid = r₀.valid ∧
      r.name = r₀.name ∧ r.description = r₀.description ∧
      r.warnings = r₀.warnings ++ referenceWarnings fs dir content ∧
      ∀ w ∈ referenceWarnings fs dir content,
        w.level = S "warning" ∧ w.field = S "references" := by
  have hex := fsExists_of_fsRead hread
  unfold validate_skill_directory at hdir
  rw [if_neg (by rw [hex]; intro hc; exact hc rfl)] at hdir
  cases hvf : validate_skill_file b fs (joinPath dir (S "SKILL.md")) with
  | error e =>
    rw [hvf] at hdir
    cases hdir
  | ok r₀ =>
    rw [hvf, hread] at hdir
    injection hdir with h'
    subst h'
    refine ⟨r₀, rfl, rfl, rfl, rfl, rfl, rfl, ?_⟩
    intro w hw
    unfold referenceWarnings at hw
    rcases List.mem_filterMap.mp hw with ⟨ref, _, hcond⟩
    split at hcond
    · cases hcond
    · injection hcond with h''
      subst h''
      exact ⟨rfl, rfl⟩

theorem c5_witness :
    ∃ r₀, validate_skill_file true c5FS (joinPath (S "d") (S "SKILL.md")) =
        .ok r₀ ∧
      (⟨false, S "d/SKILL.md", Option.none, Option.none,
        [⟨S "error", S "frontmatter",
          S "Missing YAML frontmatter (file must start with ---)"⟩],
        [⟨S "warning", S "references",
          S "Referenced file not found: scripts/run.py"⟩]⟩ :
          ValidationResult).issues = r₀.issues ∧
      (⟨false, S "d/SKILL.md", Option.none, Option.none,
        [⟨S "error", S "frontmatter",
          S "Missing YAML frontmatter (file must start with ---)"⟩],
        [⟨S "warning", S "references",
          S "Referenced file not found: scripts/run.py"⟩]⟩ :
          ValidationResult).valid = r₀.valid ∧
      (⟨false, S "d/SKILL.md", Option.none, Option.none,
        [⟨S "error", S "frontmatter",
          S "Missing YAML frontmatter (file must start with ---)"⟩],
        [⟨S "warning", S "references",
          S "Referenced file not found: scripts/run.py"⟩]⟩ :
          ValidationResult).name = r₀.name ∧
      (⟨false, S "d/SKILL.md", Option.none, Option.none,
        [⟨S "error", S "frontmatter",
          S "Missing YAML frontmatter (file must start with ---)"⟩],
        [⟨S "warning", S "references",
          S "Referenced file not found: scripts/run.py"⟩]⟩ :
          ValidationResult).description = r₀.description ∧
      (⟨false, S "d/SKILL.md", Option.none, Option.none,
        [⟨S "error", S "frontmatter",
          S "Missing YAML frontmatter (file must start with ---)"⟩],
        [⟨S "warning", S "references",
          S "Referenced file not found: scripts/run.py"⟩]⟩ :
          ValidationResult).warnings =
        r₀.warnings ++
          referenceWarnings c5FS (S "d") (S "see `scripts/run.py` for details") ∧
      ∀ w ∈ referenceWarnings c5FS (S "d")
          (S "see `scripts/run.py` for details"),
        w.level = S "warning" ∧ w.field = S "references" :=
  c5_theorem true c5FS (S "d") (S "see `scripts/run.py` for details")
    ⟨false, S "d/SKILL.md", Option.none, Option.none,
     [⟨S "error", S "frontmatter",
       S "Missing YAML frontmatter (file must start with ---)"⟩],
     [⟨S "warning", S "references",
       S "Referenced file not found: scripts/run.py"⟩]⟩
    (by decide) (by decide)

theorem dir_valid_invariant {b : Bool} {fs : FS} {p : Str}
    {r : ValidationResult} (h : validate_skill_directory b fs p = .ok r) :
    r.valid = r.issues.isEmpty := by
  simp only [validate_skill_directory] at h
  split at h
  · injection h with h'
    subst h'
    rfl
  · split at h
    · cases h
    · next r₀ hfile =>
      injection h with h'
      subst h'
      show r₀.valid = r₀.issues.isEmpty
      exact file_valid_invariant hfile

theorem list_isEmpty_iff {l : List ValidationIssue} :
    l.isEmpty = true ↔ l = [] := by
  cases l <;> simp

/-- C6: every ValidationResult returned by `validate_skill_file` or
`validate_skill_directory` (on any filesystem, any path, either parser)
satisfies the derived invariant: valid is true exactly when the error
list is empty. -/
theorem c6_theorem (b : Bool) (fs : FS) (p : Str) (r : ValidationResult) :
    (validate_skill_file b fs p = .ok r → (r.valid = true ↔ r.issues = [])) ∧
    (validate_skill_directory b fs p = .ok r →
      (r.valid = true ↔ r.issues = [])) := by
  constructor
  · intro h
    rw [file_valid_invariant h]
    exact list_isEmpty_iff
  · intro h
    rw [dir_valid_invariant h]
    exact list_isEmpty_iff

theorem c6_witness :
    ((⟨false, S "x", Option.none, Option.none,
       [⟨S "error", S "file", S "File not found: " ++ S "x"⟩], []⟩ :
        ValidationResult).valid = true ↔
     (⟨false, S "x", Option.none, Option.none,
       [⟨S "error", S "file", S "File not found: " ++ S "x"⟩], []⟩ :
        ValidationResult).issues = []) :=
  (c6_theorem true ⟨[]⟩ (S "x")
    ⟨false, S "x", Option.none, Option.none,
     [⟨S "error", S "file", S "File not found: " ++ S "x"⟩], []⟩).1 (by decide)

theorem findCloseIdx_none_iff {ls : List Str} :
    findCloseIdx ls = Option.none ↔ ∀ l ∈ ls, pyStrip l ≠ S "---" := by
  induction ls with
  | nil => simp [findCloseIdx]
  | cons l rest ih =>
    unfold findCloseIdx
    by_cases h : pyStrip l = S "---"
    · simp [h]
    · simp [h, ih]

theorem findCloseIdx_some_mem {ls : List Str} {j : Nat}
    (h : findCloseIdx ls = some j) : ∃ l ∈ ls, pyStrip l = S "---" := by
  induction ls generalizing j with
  | nil => simp [findCloseIdx] at h
  | cons l rest ih =>
    unfold findCloseIdx at h
    split at h
    · next he => exact ⟨l, List.mem_cons_self _ _, he⟩
    · cases hf : findCloseIdx rest with
      | none =>
        rw [hf] at h
        simp at h
      | some j' =>
        rcases ih hf with ⟨l', hl', he⟩
        exact ⟨l', List.mem_cons_of_mem _ hl', he⟩

theorem yamlLoadAux_nil (fm : PyDict) (pend : Option (Str × List Str)) :
    yamlLoadAux fm pend [] =
      .ok (if (flushPend fm pend).isEmpty then .null
           else .mapping (flushPend fm pend)) := rfl

theorem yamlLoadAux_cons (fm : PyDict) (pend : Option (Str × List Str))
    (line : Str) (rest : List Str) :
    yamlLoadAux fm pend (line :: rest) =
      if pyStrip line = [] then yamlLoadAux (flushPend fm pend) Option.none rest
      else
        match seqItemBody line with
        | some item =>
          match pend with
          | some (k, items) =>
            yamlLoadAux fm (some (k, items ++ [normalize_yaml_value item])) rest
          | Option.none =>
            if fm.isEmpty then .ok .scalar else .error (S "parse")
        | Option.none =>
          match yamlKeySplit line with
          | Option.none =>
            if (flushPend fm pend).isEmpty then .ok .scalar
            else .error (S "parse")
          | some (k, vraw) =>
            if pyStrip vraw = [] then
              yamlLoadAux (flushPend fm pend) (some (k, [])) rest
            else
              yamlLoadAux
                (dictInsert (flushPend fm pend) k
                  (.str (normalize_yaml_value vraw))) Option.none rest := rfl

/-- The only parse-error payload the modelled strict parser produces. -/
theorem yamlLoadAux_error :
    ∀ {lines : List Str} {fm : PyDict} {pend : Option (Str × List Str)}
      {e : Str}, yamlLoadAux fm pend lines = .error e → e = S "parse" := by
  intro lines
  induction lines with
  | nil =>
    intro fm pend e h
    rw [yamlLoadAux_nil] at h
    cases h
  | cons line rest ih =>
    intro fm pend e h
    rw [yamlLoadAux_cons] at h
    split at h
    · exact ih h
    · split at h
      · split at h
        · exact ih h
        · split at h
          · cases h
          · injection h with h'
            exact h'.symm
      · split at h
        · split at h
          · cases h
          · injection h with h'
            exact h'.symm
        · split at h
          · exact ih h
          · exact ih h

theorem yamlSafeLoad_error {lines : List Str} {e : Str}
    (h : yamlSafeLoad lines = .error e) : e = S "parse" :=
  yamlLoadAux_error h

/-- C4 counterexample: a document whose first line is " ---" (not
exactly the three-character marker) is not rejected with the missing-
frontmatter error — extraction succeeds, because the code strips the
content before testing the prefix; and a document whose only closing
candidate line is " --- " (whitespace around the marker) is not
rejected as unterminated — extraction succeeds, because the code strips
each line before comparing. -/
theorem c4_counterexample :
    (splitOnNl (S " ---\nkey: v\n---\nbody")).head? ≠ some (S "---") ∧
    exceptOk (extract_frontmatter true (S " ---\nkey: v\n---\nbody")) = true ∧
    (((splitOnNl (S "---\nkey: v\n --- \nbody")).drop 1).all
      (fun l => decide (l ≠ S "---"))) = true ∧
    exceptOk (extract_frontmatter true (S "---\nkey: v\n --- \nbody")) = true := by
  decide

/-- C4 (amended): `extract_frontmatter` returns the missing-frontmatter
error exactly when the stripped content does not start with "---"; when
it does, it returns the unterminated error exactly when no line after
the first strips to "---"; and extraction succeeds only when the
stripped content starts with "---" and some later line strips to
"---". -/
theorem c4_theorem (b : Bool) (content : Str) :
    (extract_frontmatter b content =
        .error (S "Missing YAML frontmatter (file must start with ---)") ↔
      ¬ (S "---").isPrefixOf (pyStrip content) = true) ∧
    ((S "---").isPrefixOf (pyStrip content) = true →
      (extract_frontmatter b content =
          .error (S "Invalid YAML frontmatter (missing closing ---)") ↔
        ∀ l ∈ (splitOnNl content).drop 1, pyStrip l ≠ S "---")) ∧
    (exceptOk (extract_frontmatter b content) = true →
      (S "---").isPrefixOf (pyStrip content) = true ∧
      ∃ l ∈ (splitOnNl content).drop 1, pyStrip l = S "---") := by
  by_cases hpre : (S "---").isPrefixOf (pyStrip content) = true
  · cases hf : findCloseIdx ((splitOnNl content).drop 1) with
    | none =>
      have hx : extract_frontmatter b content =
          .error (S "Invalid YAML frontmatter (missing closing ---)") := by
        simp only [extract_frontmatter, if_neg (not_not_intro hpre), hf]
      refine ⟨?_, ?_, ?_⟩
      · rw [hx]
        constructor
        · intro he
          injection he with h'
          exact absurd h' (by decide)
        · intro hc
          exact absurd hpre hc
      · intro _
        rw [hx]
        exact ⟨fun _ => findCloseIdx_none_iff.mp hf, fun _ => rfl⟩
      · intro hok
        rw [hx] at hok
        simp [exceptOk] at hok
    | some j =>
      obtain ⟨lw, hlw, hlwe⟩ := findCloseIdx_some_mem hf
      have hx : extract_frontmatter b content =
          (if b then
            match yamlSafeLoad (((splitOnNl content).drop 1).take j) with
            | .error e => .error (S "Invalid YAML in frontmatter: " ++ e)
            | .ok .null =>
              .ok ([], joinNl (((splitOnNl content).drop 1).drop (j + 1)))
            | .ok (.mapping d) =>
              .ok (d, joinNl (((splitOnNl content).drop 1).drop (j + 1)))
            | .ok .scalar => .error (S "Frontmatter must be a YAML mapping")
          else
            .ok (parse_simple_frontmatter (((splitOnNl content).drop 1).take j),
                 joinNl (((splitOnNl content).drop 1).drop (j + 1)))) := by
        simp only [extract_frontmatter, if_neg (not_not_intro hpre), hf]
      refine ⟨?_, ?_, ?_⟩
      · rw [hx]
        constructor
        · intro he
          exfalso
          cases b with
          | true =>
            rw [if_pos rfl] at he
            cases hy : yamlSafeLoad (((splitOnNl content).drop 1).take j) with
            | error e =>
              rw [hy] at he
              have hp := yamlSafeLoad_error hy
              subst hp
              injection he with h'
              exact absurd h' (by decide)
            | ok v =>
              rw [hy] at he
              cases v with
              | null => cases he
              | mapping d => cases he
              | scalar =>
                injection he with h'
                exact absurd h' (by decide)
          | false =>
            rw [if_neg (by decide : ¬ (false = true))] at he
            cases he
        · intro hc
          exact absurd hpre hc
      · intro _
        rw [hx]
        constructor
        · intro he
          exfalso
          cases b with
          | true =>
            rw [if_pos rfl] at he
            cases hy : yamlSafeLoad (((splitOnNl content).drop 1).take j) with
            | error e =>
              rw [hy] at he
              have hp := yamlSafeLoad_error hy
              subst hp
              injection he with h'
              exact absurd h' (by decide)
            | ok v =>
              rw [hy] at he
              cases v with
              | null => cases he
              | mapping d => cases he
              | scalar =>
                injection he with h'
                exact absurd h' (by decide)
          | false =>
            rw [if_neg (by decide : ¬ (false = true))] at he
            cases he
        · intro hall
          exact absurd hlwe (hall lw hlw)
      · intro _
        exact ⟨hpre, lw, hlw, hlwe⟩
  · have hx : extract_frontmatter b content =
        .error (S "Missing YAML frontmatter (file must start with ---)") := by
      simp only [extract_frontmatter, if_pos hpre]
    refine ⟨?_, ?_, ?_⟩
    · rw [hx]
      exact ⟨fun _ => hpre, fun _ => rfl⟩
    · intro hp
      exact absurd hp hpre
    · intro hok
      rw [hx] at hok
      simp [exceptOk] at hok

theorem c4_witness :
    extract_frontmatter true (S "abc") =
      .error (S "Missing YAML frontmatter (file must start with ---)") :=
  (c4_theorem true (S "abc")).1.mpr (by decide)


theorem flushCur_some (fm : PyDict) (k : Str) (vls : List Str) :
    flushCur fm (some (k, vls)) =
      dictInsert fm k (.str (normalize_yaml_value (joinNl vls))) := rfl

theorem keyMatchFallback_scalar {c : Char} {ks v : Str}
    (hc : isKeyStart c = true) (hk : ∀ x ∈ c :: ks, isKeyChar x = true) :
    keyMatchFallback ((c :: ks) ++ ':' :: ' ' :: v) =
      some (c :: ks, trimLeft v) := by
  have hks : ∀ x ∈ ks, isKeyChar x = true :=
    fun x hx => hk x (List.mem_cons_of_mem _ hx)
  rw [List.cons_append]
  simp only [keyMatchFallback]
  rw [if_pos hc]
  rw [takeWhile_append_all hks, dropWhile_append_all hks]
  rw [show List.takeWhile isKeyChar (':' :: ' ' :: v) = ([] : Str) from rfl]
  rw [List.append_nil]
  rfl

theorem splitColon_scalar {k v : Str} (hk : ∀ c ∈ k, isKeyChar c = true) :
    splitColon (k ++ ':' :: ' ' :: v) = some (k, ' ' :: v) := by
  induction k with
  | nil => rfl
  | cons c cs ih =>
    rw [List.cons_append]
    simp only [splitColon]
    rw [if_neg (by
      simp only [Bool.and_eq_true, decide_eq_true_eq]
      intro hcon
      exact keyChar_ne_colon (hk c (List.mem_cons_self _ _)) hcon.1)]
    rw [ih (fun x hx => hk x (List.mem_cons_of_mem _ hx))]
    rfl

theorem yamlKeySplit_scalar {c : Char} {ks v : Str}
    (hc : isKeyStart c = true) (hk : ∀ x ∈ c :: ks, isKeyChar x = true) :
    yamlKeySplit ((c :: ks) ++ ':' :: ' ' :: v) = some (c :: ks, ' ' :: v) := by
  unfold yamlKeySplit
  rw [splitColon_scalar hk]
  have hs : pyStrip (c :: ks) = c :: ks :=
    strip_of_no_space (fun x hx => keyChar_not_space (hk x hx))
  simp only [Option.some_bind, hs]
  rw [if_neg (List.cons_ne_nil _ _)]

theorem scalar_strip_head {c : Char} {ks v : Str}
    (hc : isKeyStart c = true) :
    pyStrip ((c :: ks) ++ ':' :: ' ' :: v) =
      c :: trimRight (ks ++ ':' :: ' ' :: v) := by
  have hcs : isPySpace c = false := keyChar_not_space (keyStart_isKeyChar hc)
  rw [List.cons_append]
  unfold pyStrip
  rw [trimLeft_of_head_false hcs]
  rw [trimRight_cons (Or.inr hcs)]

theorem scalar_seqItemBody {c : Char} {ks v : Str}
    (hc : isKeyStart c = true) :
    seqItemBody ((c :: ks) ++ ':' :: ' ' :: v) = Option.none := by
  unfold seqItemBody
  rw [scalar_strip_head hc]
  split
  · next rest heq =>
    exfalso
    injection heq with h1 _
    exact keyStart_ne_hyphen hc h1
  · rfl

theorem scalar_strip_ne_nil {c : Char} {ks v : Str}
    (hc : isKeyStart c = true) :
    pyStrip ((c :: ks) ++ ':' :: ' ' :: v) ≠ [] := by
  rw [scalar_strip_head hc]
  exact List.cons_ne_nil _ _

/-- One `key: value` step of the modelled strict parser. -/
theorem yamlLoadAux_scalar_step {c : Char} {ks v : Str} {fm : PyDict}
    {rest : List Str} (hc : isKeyStart c = true)
    (hk : ∀ x ∈ c :: ks, isKeyChar x = true) (hv : pyStrip v ≠ []) :
    yamlLoadAux fm Option.none (((c :: ks) ++ ':' :: ' ' :: v) :: rest) =
      yamlLoadAux
        (dictInsert fm (c :: ks) (.str (normalize_yaml_value (' ' :: v))))
        Option.none rest := by
  have hsp : pyStrip (' ' :: v) ≠ [] := by
    rw [strip_cons_space (by decide)]
    exact hv
  rw [yamlLoadAux_cons]
  rw [if_neg (scalar_strip_ne_nil hc)]
  rw [scalar_seqItemBody hc]
  rw [yamlKeySplit_scalar hc hk]
  show (if pyStrip (' ' :: v) = [] then
          yamlLoadAux (flushPend fm Option.none) (some (c :: ks, [])) rest
        else
          yamlLoadAux
            (dictInsert (flushPend fm Option.none) (c :: ks)
              (.str (normalize_yaml_value (' ' :: v)))) Option.none rest) = _
  rw [if_neg hsp]
  rfl

/-- One `key: value` step of the fallback parser. -/
theorem parseFMAux_scalar_step {c : Char} {ks v : Str} {fm : PyDict}
    {cur : Option (Str × List Str)} {rest : List Str}
    (hc : isKeyStart c = true) (hk : ∀ x ∈ c :: ks, isKeyChar x = true) :
    parseFMAux fm cur (((c :: ks) ++ ':' :: ' ' :: v) :: rest) =
      parseFMAux (flushCur fm cur) (some (c :: ks, [trimLeft v])) rest := by
  rw [parseFMAux_cons, keyMatchFallback_scalar hc hk]

theorem scalarFold_cons (fm : PyDict) (l : Str) (rest : List Str) :
    scalarFold fm (l :: rest) =
      scalarFold
        (match keyMatchFallback l with
         | some (k, v) => dictInsert fm k (.str (normalize_yaml_value v))
         | Option.none => fm) rest := rfl

theorem normalize_space_trimLeft (v : Str) :
    normalize_yaml_value (' ' :: v) = normalize_yaml_value (trimLeft v) :=
  normalize_congr ((strip_cons_space (by decide)).trans (strip_trimLeft v).symm)

theorem dictInsert_ne_nil {d : PyDict} {k : Str} {v : PyValue} :
    dictInsert d k v ≠ [] := by
  unfold dictInsert
  split
  · next h =>
    cases d with
    | nil => simp at h
    | cons x xs => simp
  · simp

theorem scalarFold_ne_nil :
    ∀ {lines : List Str} {fm : PyDict}, fm ≠ [] → scalarFold fm lines ≠ [] := by
  intro lines
  induction lines with
  | nil => intro fm h; exact h
  | cons l rest ih =>
    intro fm h
    rw [scalarFold_cons]
    apply ih
    cases hkm : keyMatchFallback l with
    | some p =>
      obtain ⟨k, v⟩ := p
      exact dictInsert_ne_nil
    | none => exact h

theorem yamlLoadAux_scalar :
    ∀ {lines : List Str}, (∀ l ∈ lines, scalarLine l) →
    ∀ fm, yamlLoadAux fm Option.none lines =
      .ok (if (scalarFold fm lines).isEmpty then YamlVal.null
           else .mapping (scalarFold fm lines)) := by
  intro lines
  induction lines with
  | nil => intro _ fm; rfl
  | cons l rest ih =>
    intro hall fm
    obtain ⟨k, v, hl, ⟨⟨c, ks, hkc, hcs⟩, hkchars⟩, hv⟩ :=
      hall l (List.mem_cons_self _ _)
    subst hkc
    subst hl
    rw [yamlLoadAux_scalar_step hcs hkchars hv]
    rw [ih (fun l' hl' => hall l' (List.mem_cons_of_mem _ hl')) _]
    rw [normalize_space_trimLeft]
    rw [scalarFold_cons, keyMatchFallback_scalar hcs hkchars]

theorem parseFMAux_scalar :
    ∀ {lines : List Str}, (∀ l ∈ lines, scalarLine l) →
    ∀ fm cur, parseFMAux fm cur lines = scalarFold (flushCur fm cur) lines := by
  intro lines
  induction lines with
  | nil => intro _ fm cur; rfl
  | cons l rest ih =>
    intro hall fm cur
    obtain ⟨k, v, hl, ⟨⟨c, ks, hkc, hcs⟩, hkchars⟩, hv⟩ :=
      hall l (List.mem_cons_self _ _)
    subst hkc
    subst hl
    rw [parseFMAux_scalar_step hcs hkchars]
    rw [ih (fun l' hl' => hall l' (List.mem_cons_of_mem _ hl')) _ _]
    rw [flushCur_some, joinNl_singleton]
    rw [scalarFold_cons, keyMatchFallback_scalar hcs hkchars]

/-- C2 counterexample: the frontmatter line "allowed-tools: Bash" (its
key is on the repository's own allow-list) is a scalar `key: value`
line, yet the strict parser maps it to a one-entry mapping while the
fallback parser silently drops it and returns the empty mapping. -/
theorem c2_counterexample :
    yamlSafeLoad [S "allowed-tools: Bash"] =
      .ok (.mapping [(S "allowed-tools", PyValue.str (S "Bash"))]) ∧
    parse_simple_frontmatter [S "allowed-tools: Bash"] = [] ∧
    yamlSafeLoad [S "allowed-tools: Bash"] ≠
      .ok (.mapping (parse_simple_frontmatter [S "allowed-tools: Bash"])) :=
  ⟨by decide, by decide, by decide⟩

/-- C2 (amended): on a nonempty block of plain scalar `key: value`
lines whose keys match the fallback parser's key pattern
`[a-zA-Z_][a-zA-Z0-9_]*` (colon followed by a space, value nonempty
after stripping), the strict parser and the fallback parser produce the
same mapping. -/
theorem c2_theorem (lines : List Str) (hne : lines ≠ [])
    (hall : ∀ l ∈ lines, scalarLine l) :
    yamlSafeLoad lines = .ok (.mapping (parse_simple_frontmatter lines)) := by
  have hnn : scalarFold ([] : PyDict) lines ≠ [] := by
    cases lines with
    | nil => exact absurd rfl hne
    | cons l rest =>
      obtain ⟨k, v, hl, ⟨⟨c, ks, hkc, hcs⟩, hkchars⟩, hv⟩ :=
        hall l (List.mem_cons_self _ _)
      subst hkc
      subst hl
      rw [scalarFold_cons, keyMatchFallback_scalar hcs hkchars]
      exact scalarFold_ne_nil dictInsert_ne_nil
  unfold yamlSafeLoad parse_simple_frontmatter
  rw [yamlLoadAux_scalar hall _]
  rw [parseFMAux_scalar hall _ _]
  rw [if_neg (by
    intro hc
    apply hnn
    cases he : scalarFold ([] : PyDict) lines with
    | nil => rfl
    | cons x xs =>
      rw [he] at hc
      cases hc)]
  rfl

theorem c2_witness :
    yamlSafeLoad [S "name: my-skill"] =
      .ok (.mapping (parse_simple_frontmatter [S "name: my-skill"])) :=
  c2_theorem [S "name: my-skill"] (by decide)
    (fun l hl => by
      rw [List.mem_singleton.mp hl]
      exact ⟨S "name", S "my-skill", by decide,
        ⟨⟨'n', S "ame", by decide, by decide⟩, by decide⟩, by decide⟩)
